/-
Verification of `examples/PINN/scripts/Bioreactor_Multifidelity.py`.

The script is sequential glue code around an external ML framework: it parses
one CLI flag, builds a piecewise "multifidelity" model of 72 sub-networks,
trains one sub-network per unit time interval (ADAM with a decaying epoch
budget, then L-BFGS-B), hands the final predicted state of each interval to
the next one as its initial condition, and registers the trained sub-network
in the piecewise model.

Embedding conventions:
  * python floats are modelled by exact rationals `ℚ`; the literal `1e-13`
    used in `MultiNetwork.eval` becomes the exact rational `1/10^13`;
  * python `int(x)` (truncation toward zero) is `pyInt`;
  * the external framework's operations (network construction, `state_dict`
    and `load_state_dict`, the two `fit` calls, `net.eval`, the residual
    constructor, `np.exp`) are abstract parameters of the loop model: the
    claims under verification concern only the script's own routing,
    sequencing and dataflow, never the numerics inside those calls;
  * in-place mutation of a network object by `fit`/`load_state_dict` is
    modelled by functional update.
-/
import Mathlib

namespace Bioreactor

/-! ## Basic numeric modelling -/

/-- Python `int(x)`: truncation toward zero (`numpy.ndarray.astype(int)`
behaves the same way on finite values). -/
def pyInt (x : ℚ) : ℤ := if 0 ≤ x then ⌊x⌋ else ⌈x⌉

/-- The literal `1e-13` subtracted before flooring in `MultiNetwork.eval`,
modelled as the exact rational. -/
def evalEps : ℚ := 1 / 10 ^ 13

/-! ## Script constants (lines 42-55 of the source) -/

/-- `n = 100`: number of points of the per-interval time grids. -/
def nGridPoints : ℕ := 100

/-- `t_max = 72.0`. -/
def t_max : ℚ := 72

/-- `n_intervals = 72`. -/
def n_intervals : ℕ := 72

/-- `delta_t = t_max/n_intervals`. -/
def delta_t : ℚ := t_max / (n_intervals : ℚ)

/-- A row of the four output quantities `(X_C, P_C, S_C, Vol)`. -/
abbrev Row : Type := ℚ × ℚ × ℚ × ℚ

/-- Initial conditions `X0 = 0.05`, `P0 = 0.00`, `S0 = 10.00`, `V0 = 1.00`;
`state_t = np.array([X0, P0, S0, V0])` (line 55). -/
def state_t0 : Row := (0.05, 0.00, 10.00, 1.00)

/-- `np.linspace(a, b, num)`: `num` evenly spaced points from `a` to `b`
inclusive. -/
def linspace (a b : ℚ) (num : ℕ) : List ℚ :=
  (List.range num).map fun k => a + (b - a) * k / ((num : ℚ) - 1)

/-! ## The `MultiNetwork` piecewise model (source lines 215-257)

`MultiNetwork` keeps one sub-network per attribute name `worker_{index}`;
`set_network` both sets the python attribute (`setattr`) and registers the
module (`add_module`).  Both name-indexed collections are modelled as maps
`ℤ → Option Net`; `getattr` on an absent name is `none` (an
`AttributeError` in python). -/

structure MultiNetwork (Net : Type) where
  /-- python attributes `worker_{i}` installed by `setattr`. -/
  attrs : ℤ → Option Net
  /-- torch modules `worker_{i}` registered by `add_module`. -/
  modules : ℤ → Option Net
  /-- `self.delta_t`. -/
  delta_t : ℚ
  /-- `self.device`. -/
  device : String

/-- `MultiNetwork.set_network` (source lines 228-232): `setattr` plus
`add_module` under the name `worker_{index}`. -/
def MultiNetwork.set_network {Net : Type} (m : MultiNetwork Net)
    (net : Net) (index : ℤ) : MultiNetwork Net :=
  { m with
    attrs := fun j => if j = index then some net else m.attrs j,
    modules := fun j => if j = index then some net else m.modules j }

/-- The `MultiNetwork.__init__` constructor (source lines 217-226): start from
the bare `NetworkTemplate` (no `worker_*` attributes) and `set_network` each
model of `models_list` at its position; then store `delta_t` and `device`. -/
def mkMultiNetwork {Net : Type} (models_list : List Net) (dt : ℚ)
    (device : String) : MultiNetwork Net :=
  models_list.enum.foldl (fun m p => m.set_network p.2 (p.1 : ℤ))
    { attrs := fun _ => none, modules := fun _ => none,
      delta_t := dt, device := device }

/-- The interval index computed by `MultiNetwork.eval` (source lines
241-244) for one input time `t`:
`np.where(t/delta_t > 0, np.floor(t/delta_t - 1e-13).astype(int),
(t/delta_t).astype(int))`.  `g` is the module-level `delta_t` the method
closes over (not `self.delta_t`). -/
def evalIndex (g : ℚ) (t : ℚ) : ℤ :=
  if 0 < t / g then ⌊t / g - evalEps⌋ else pyInt (t / g)

/-- One element of the comprehension in `MultiNetwork.eval` (source lines
234-237 and 248-251): look the attribute `worker_{index}` up and evaluate it
at the shifted time `t - self.delta_t * index`.  `evalW w τ` abstracts the
sub-network call `w.eval(input_data=[[τ]])`; an absent attribute is `none`
(python `AttributeError`). -/
def evalOne {Net : Type} (evalW : Net → ℚ → Row) (g : ℚ)
    (m : MultiNetwork Net) (t : ℚ) : Option Row :=
  (m.attrs (evalIndex g t)).map fun w =>
    evalW w (t - m.delta_t * (evalIndex g t : ℚ))

/-- Evaluate a whole list, failing (as the python list comprehension does)
as soon as one element fails. -/
def evalRows {Net : Type} (evalW : Net → ℚ → Row) (g : ℚ)
    (m : MultiNetwork Net) : List ℚ → Option (List Row)
  | [] => some []
  | t :: ts =>
    match evalOne evalW g m t, evalRows evalW g m ts with
    | some r, some rs => some (r :: rs)
    | _, _ => none

/-- `MultiNetwork.eval` (source lines 239-251): route every input time to a
sub-network, evaluate at the shifted times, and stack the rows in input
order (`np.vstack`). -/
def MultiNetwork.eval {Net : Type} (evalW : Net → ℚ → Row) (g : ℚ)
    (m : MultiNetwork Net) (input_data : List ℚ) : Option (List Row) :=
  evalRows evalW g m input_data

/-! ## C8: `set_network` is a frame-local update -/

/-- C8: `MultiNetwork.set_network net index` changes only the slot `index`:
every other attribute and registered module is unchanged, the attribute and
the module at `index` are afterwards the same object `net`, and `delta_t`
and `device` are untouched. -/
theorem set_network_frame {Net : Type} (m : MultiNetwork Net) (net : Net)
    (index j : ℤ) (hj : j ≠ index) :
    (m.set_network net index).attrs j = m.attrs j ∧
    (m.set_network net index).modules j = m.modules j ∧
    (m.set_network net index).attrs index = some net ∧
    (m.set_network net index).modules index = some net ∧
    (m.set_network net index).delta_t = m.delta_t ∧
    (m.set_network net index).device = m.device := by
  refine ⟨?_, ?_, ?_, ?_, rfl, rfl⟩ <;> simp [MultiNetwork.set_network, hj]

/-- Witness for C8 at a concrete net and indices `3 ≠ 5`. -/
theorem set_network_frame_witness :
    let m : MultiNetwork ℕ :=
      { attrs := fun j => if j = 3 then some 30 else none,
        modules := fun j => if j = 3 then some 30 else none,
        delta_t := 1, device := "cpu" }
    (m.set_network 55 5).attrs 3 = m.attrs 3 ∧
    (m.set_network 55 5).modules 3 = m.modules 3 ∧
    (m.set_network 55 5).attrs 5 = some 55 ∧
    (m.set_network 55 5).modules 5 = some 55 ∧
    (m.set_network 55 5).delta_t = m.delta_t ∧
    (m.set_network 55 5).device = m.device :=
  set_network_frame _ 55 5 3 (by decide)

/-! ## C4: the `--train` CLI flag is dead (source lines 59-67) -/

/-- `args.train` after `argparse`: the supplied value, or the default
`"yes"` when the flag is absent (source line 60). -/
def parsedTrain (cliTrain : Option String) : String := cliTrain.getD "yes"

set_option linter.unusedVariables false in
/-- The variable `train` at the moment the branch is tested: line 63 copies
`args.train` into it, line 65 immediately overwrites it with `"yes"`. -/
def trainVar (cliTrain : Option String) : String :=
  let train := parsedTrain cliTrain
  "yes"

/-- The branch test `if train == "yes"` (source line 67): `true` selects the
training branch, `false` the restore branch. -/
def scriptBranch (cliTrain : Option String) : Bool := trainVar cliTrain == "yes"

/-- C4: the branch taken is independent of the `--train` argument, and it is
always the training branch, because the parsed value is overwritten with
`"yes"` before the test. -/
theorem train_flag_dead (a b : Option String) :
    scriptBranch a = scriptBranch b ∧ scriptBranch a = true := by
  constructor <;> rfl

/-! ## C3: the ADAM epoch budget `Epoch_Decay` (source lines 95-107)

`np.exp(-iteration_number/Epoch_Tau)` with `Epoch_Tau = 3.0` is abstracted
as a parameter `E : ℕ → ℚ`, `E i` standing for `exp(-i/3)`; the claims use
only that `E 0 = 1`, `0 ≤ E i ≤ 1` and that `E` is non-increasing, all of
which hold of the library function. -/

/-- `n_epochs_ini = 5_000`. -/
def n_epochs_ini : ℤ := 5000

/-- `n_epochs_min = 500`. -/
def n_epochs_min : ℤ := 500

/-- `Epoch_Decay` (source lines 99-107): for `i < 100`, compute
`n_epochs_iter = n_epochs_ini * exp(-i/3)` and return
`int(max(n_epochs_iter, n_epochs_min))`; otherwise return `n_epochs_min`. -/
def Epoch_Decay (E : ℕ → ℚ) (iteration_number : ℕ) : ℤ :=
  if iteration_number < 100 then
    let n_epochs_iter : ℚ := (n_epochs_ini : ℚ) * E iteration_number
    pyInt (max n_epochs_iter (n_epochs_min : ℚ))
  else n_epochs_min

/-- On nonnegative arguments, python truncation agrees with the floor. -/
theorem pyInt_of_nonneg {x : ℚ} (hx : 0 ≤ x) : pyInt x = ⌊x⌋ := if_pos hx

/-- Python truncation never exceeds the argument's ceiling; combined with
monotonicity cases this handles the mixed-sign comparisons below. -/
theorem pyInt_le_pyInt {x y : ℚ} (hxy : x ≤ y) (hy : 0 ≤ y) :
    pyInt x ≤ pyInt y := by
  rw [pyInt_of_nonneg hy]
  unfold pyInt
  split
  · exact Int.floor_le_floor hxy
  · calc ⌈x⌉ ≤ ⌈(0 : ℚ)⌉ := Int.ceil_le_ceil (by linarith)
    _ = 0 := by norm_num
    _ ≤ ⌊y⌋ := by positivity

/-- Truncation of a `max` against a nonnegative integer bound splits into a
`max` of the truncations. -/
theorem pyInt_max_intCast (x : ℚ) (c : ℤ) (hc : 0 ≤ c) :
    pyInt (max x (c : ℚ)) = max (pyInt x) c := by
  have hcq : (0 : ℚ) ≤ (c : ℚ) := by exact_mod_cast hc
  rcases le_total x (c : ℚ) with h | h
  · rw [max_eq_right h, pyInt_of_nonneg hcq, Int.floor_intCast,
      max_eq_right]
    calc pyInt x ≤ pyInt (c : ℚ) := pyInt_le_pyInt h hcq
    _ = c := by rw [pyInt_of_nonneg hcq, Int.floor_intCast]
  · have hx : (0 : ℚ) ≤ x := le_trans hcq h
    rw [max_eq_left h, pyInt_of_nonneg hx, max_eq_left]
    calc c = ⌊(c : ℚ)⌋ := (Int.floor_intCast c).symm
    _ ≤ ⌊x⌋ := Int.floor_le_floor h

/-- C3: with `E i` standing for `exp(-i/3)` (so `E 0 = 1`, `0 ≤ E ≤ 1`, `E`
non-increasing), `Epoch_Decay` equals `max(int(5000 * E i), 500)` for
`i < 100` and `500` for `i ≥ 100`; it is non-increasing, bounded between
500 and 5000, and starts at 5000. -/
theorem Epoch_Decay_spec (E : ℕ → ℚ) (hE0 : E 0 = 1)
    (hEnn : ∀ i, 0 ≤ E i) (hEle : ∀ i, E i ≤ 1)
    (hEanti : ∀ i j, i ≤ j → E j ≤ E i) :
    (∀ i, i < 100 → Epoch_Decay E i = max (pyInt (5000 * E i)) 500) ∧
    (∀ i, 100 ≤ i → Epoch_Decay E i = 500) ∧
    (∀ i j, i ≤ j → Epoch_Decay E j ≤ Epoch_Decay E i) ∧
    (∀ i, 500 ≤ Epoch_Decay E i ∧ Epoch_Decay E i ≤ 5000) ∧
    Epoch_Decay E 0 = 5000 := by
  have hval : ∀ i, i < 100 →
      Epoch_Decay E i = max (pyInt (5000 * E i)) 500 := by
    intro i hi
    rw [Epoch_Decay, if_pos hi]
    exact pyInt_max_intCast _ 500 (by norm_num)
  have hlo : ∀ i, 500 ≤ Epoch_Decay E i := by
    intro i
    by_cases hi : i < 100
    · rw [hval i hi]; exact le_max_right _ _
    · rw [Epoch_Decay, if_neg hi]; exact le_refl _
  have hfloor_le : ∀ i, pyInt (5000 * E i) ≤ 5000 := by
    intro i
    have h1 : (5000 : ℚ) * E i ≤ 5000 := by
      have := hEle i
      nlinarith [hEnn i]
    rw [pyInt_of_nonneg (mul_nonneg (by norm_num) (hEnn i))]
    calc ⌊(5000 : ℚ) * E i⌋ ≤ ⌊(5000 : ℚ)⌋ := Int.floor_le_floor h1
    _ = 5000 := by norm_num
  have hhi : ∀ i, Epoch_Decay E i ≤ 5000 := by
    intro i
    by_cases hi : i < 100
    · rw [hval i hi]
      exact max_le (hfloor_le i) (by norm_num)
    · rw [Epoch_Decay, if_neg hi]; norm_num [n_epochs_min]
  have hmono : ∀ i j, i ≤ j → Epoch_Decay E j ≤ Epoch_Decay E i := by
    intro i j hij
    by_cases hj : j < 100
    · have hi : i < 100 := lt_of_le_of_lt hij hj
      rw [hval i hi, hval j hj]
      have hm : (5000 : ℚ) * E j ≤ 5000 * E i := by
        have := hEanti i j hij
        nlinarith
      have : pyInt (5000 * E j) ≤ pyInt (5000 * E i) := by
        rw [pyInt_of_nonneg (mul_nonneg (by norm_num) (hEnn j)),
          pyInt_of_nonneg (mul_nonneg (by norm_num) (hEnn i))]
        exact Int.floor_le_floor hm
      exact max_le_max this (le_refl _)
    · rw [Epoch_Decay, if_neg hj]
      exact hlo i
  refine ⟨hval, ?_, hmono, fun i => ⟨hlo i, hhi i⟩, ?_⟩
  · intro i hi
    rw [Epoch_Decay, if_neg (by omega)]
    rfl
  · rw [hval 0 (by norm_num), hE0]
    norm_num [pyInt]

/-- Witness for C3 at the concrete antitone model `E = fun _ => 1` of the
decaying exponential, evaluated at iterations 0 and 100. -/
theorem Epoch_Decay_spec_witness :
    Epoch_Decay (fun _ => 1) 0 = 5000 ∧ Epoch_Decay (fun _ => 1) 100 = 500 ∧
    (500 ≤ Epoch_Decay (fun _ => 1) 7 ∧ Epoch_Decay (fun _ => 1) 7 ≤ 5000) := by
  have h := Epoch_Decay_spec (fun _ => 1) rfl (fun _ => by norm_num)
    (fun _ => le_refl 1) (fun _ _ _ => le_refl 1)
  exact ⟨h.2.2.2.2, h.2.1 100 (le_refl 100), h.2.2.2.1 7⟩

/-! ## C1: the routing of `MultiNetwork.eval`

The script instantiates the model with `delta_t = 1`, so the index
computation is `⌊t - 1e-13⌋` for `t > 0` and `int(t)` otherwise.  The spec
describes the intended routing; `claimedIndex` transcribes those words for
comparison with `evalIndex` from the code. -/

/-- The index the claim describes (transcribed from the spec, for the
refinement comparison, with `delta_t = 1`): `t = 0` goes to worker 0, an
exact boundary `t = k ≥ 1` goes to worker `k - 1`, any other `t` goes to
the worker whose interval `[i, i+1]` contains it, i.e. `i = ⌊t⌋`. -/
def claimedIndex (t : ℚ) : ℤ :=
  if t = 0 then 0 else if Int.fract t = 0 then ⌊t⌋ - 1 else ⌊t⌋

/-- Unfolding of `evalIndex` at `delta_t = 1`. -/
theorem evalIndex_one (t : ℚ) :
    evalIndex 1 t = if 0 < t then ⌊t - evalEps⌋ else pyInt t := by
  simp [evalIndex, div_one]

/-- Lists evaluated by `evalRows` keep their length and their order: the
`j`-th output row is the evaluation of the `j`-th input time. -/
theorem evalRows_some {Net : Type} (evalW : Net → ℚ → Row) (g : ℚ)
    (m : MultiNetwork Net) :
    ∀ (ts : List ℚ) (out : List Row), evalRows evalW g m ts = some out →
      out.length = ts.length ∧ ∀ j, j < ts.length →
        evalOne evalW g m (ts.getD j 0) = some (out.getD j (0, 0, 0, 0))
  | [], out => by
    intro h
    simp only [evalRows, Option.some.injEq] at h
    subst h
    exact ⟨rfl, fun j hj => absurd hj (by simp)⟩
  | t :: ts, out => by
    intro h
    simp only [evalRows] at h
    rcases h1 : evalOne evalW g m t with _ | r <;> rw [h1] at h
    · exact absurd h (by simp)
    rcases h2 : evalRows evalW g m ts with _ | rs <;> rw [h2] at h
    · exact absurd h (by simp)
    obtain rfl : r :: rs = out := by simpa using h
    obtain ⟨hlen, hget⟩ := evalRows_some evalW g m ts rs h2
    refine ⟨by simp [hlen], fun j hj => ?_⟩
    cases j with
    | zero => simpa using h1
    | succ j => exact hget j (by simpa using hj)

/-- C1 (amended): with `delta_t = 1`: (i) every time `t ∈ [0, 72]` that is
an integer or lies at least `1e-13` above the integer below it is routed as
the claim states: the code's index agrees with `claimedIndex`, so `t` goes
to the sub-network whose interval `[i, i+1]` contains it (with `t = 0` to
worker 0 and an exact boundary `t = k ≥ 1` to worker `k-1`), and the
shifted time `t - i` lies in `[0, 1]`; (ii) a time strictly inside the
tolerance window `(k, k + 1e-13)` gets index `k - 1`: for `k ≥ 1` it is
routed one interval down, to a worker whose interval does not contain it,
with shifted time exceeding `delta_t`, and for `k = 0` the index is `-1`,
whose worker attribute does not exist, so evaluation fails; (iii) output
rows always appear in the order of the input times. -/
theorem eval_routing :
    (∀ t : ℚ, 0 ≤ t → t ≤ 72 →
      Int.fract t = 0 ∨ evalEps ≤ Int.fract t →
      evalIndex 1 t = claimedIndex t ∧
      (claimedIndex t : ℚ) ≤ t ∧ t ≤ (claimedIndex t : ℚ) + 1 ∧
      0 ≤ t - 1 * (claimedIndex t : ℚ) ∧ t - 1 * (claimedIndex t : ℚ) ≤ 1) ∧
    (∀ t : ℚ, 0 ≤ t → t ≤ 72 → 0 < Int.fract t → Int.fract t < evalEps →
      evalIndex 1 t = ⌊t⌋ - 1 ∧
      (1 ≤ ⌊t⌋ →
        ((⌊t⌋ - 1 : ℤ) : ℚ) ≤ t ∧ ¬ t ≤ ((⌊t⌋ - 1 : ℤ) : ℚ) + 1 ∧
        1 < t - 1 * ((⌊t⌋ - 1 : ℤ) : ℚ)) ∧
      (⌊t⌋ = 0 → evalIndex 1 t = -1 ∧
        ∀ (Net : Type) (evalW : Net → ℚ → Row) (m : MultiNetwork Net),
          m.attrs (-1) = none → evalOne evalW 1 m t = none)) ∧
    (∀ (Net : Type) (evalW : Net → ℚ → Row) (g : ℚ) (m : MultiNetwork Net)
      (ts : List ℚ) (out : List Row),
      MultiNetwork.eval evalW g m ts = some out →
      out.length = ts.length ∧ ∀ j, j < ts.length →
        evalOne evalW g m (ts.getD j 0) = some (out.getD j (0, 0, 0, 0))) := by
  refine ⟨?_, ?_, ?_⟩
  · intro t h0 h72 hfar
    have heps : (0 : ℚ) < evalEps := by norm_num [evalEps]
    have heps1 : evalEps ≤ 1 := by norm_num [evalEps]
    by_cases ht0 : t = 0
    · subst ht0
      norm_num [evalIndex_one, claimedIndex, pyInt]
    · have htpos : 0 < t := lt_of_le_of_ne h0 (Ne.symm ht0)
      rcases hfar with hint | habove
      · obtain ⟨k, rfl⟩ : ∃ k : ℤ, t = (k : ℚ) := by
          refine ⟨⌊t⌋, ?_⟩
          have hsum := Int.floor_add_fract t
          rw [hint, add_zero] at hsum
          exact hsum.symm
        have hk1 : (1 : ℤ) ≤ k := by exact_mod_cast htpos
        have hfl : ⌊(k : ℚ) - evalEps⌋ = k - 1 := by
          rw [Int.floor_eq_iff]
          push_cast
          constructor <;> linarith
        have hidx : evalIndex 1 (k : ℚ) = k - 1 := by
          rw [evalIndex_one, if_pos htpos, hfl]
        have hclaim : claimedIndex (k : ℚ) = k - 1 := by
          rw [claimedIndex, if_neg ht0, if_pos (Int.fract_intCast k),
            Int.floor_intCast]
        refine ⟨hidx.trans hclaim.symm, ?_, ?_, ?_, ?_⟩ <;>
          rw [hclaim] <;> push_cast <;> linarith
      · have hne : Int.fract t ≠ 0 := ne_of_gt (lt_of_lt_of_le heps habove)
        have hfr : (⌊t⌋ : ℚ) + Int.fract t = t := Int.floor_add_fract t
        have hup : t < (⌊t⌋ : ℚ) + 1 := Int.lt_floor_add_one t
        have hfle : (⌊t⌋ : ℚ) ≤ t := Int.floor_le t
        have hfl : ⌊t - evalEps⌋ = ⌊t⌋ := by
          rw [Int.floor_eq_iff]
          constructor <;> linarith
        have hidx : evalIndex 1 t = ⌊t⌋ := by
          rw [evalIndex_one, if_pos htpos, hfl]
        have hclaim : claimedIndex t = ⌊t⌋ := by
          rw [claimedIndex, if_neg ht0, if_neg hne]
        refine ⟨hidx.trans hclaim.symm, ?_, ?_, ?_, ?_⟩ <;>
          rw [hclaim] <;> linarith
  · intro t h0 h72 hfpos hflt
    have heps1 : evalEps ≤ 1 := by norm_num [evalEps]
    have hfr : (⌊t⌋ : ℚ) + Int.fract t = t := Int.floor_add_fract t
    have ht0 : t ≠ 0 := by
      intro h
      rw [h, Int.fract_zero] at hfpos
      exact lt_irrefl 0 hfpos
    have htpos : 0 < t := lt_of_le_of_ne h0 (Ne.symm ht0)
    have hfl : ⌊t - evalEps⌋ = ⌊t⌋ - 1 := by
      rw [Int.floor_eq_iff]
      push_cast
      constructor <;> linarith
    have hidx : evalIndex 1 t = ⌊t⌋ - 1 := by
      rw [evalIndex_one, if_pos htpos, hfl]
    have hgt : (⌊t⌋ : ℚ) < t := by linarith
    refine ⟨hidx, ?_, ?_⟩
    · intro hk1
      have hk1' : (1 : ℚ) ≤ (⌊t⌋ : ℚ) := by exact_mod_cast hk1
      refine ⟨?_, ?_, ?_⟩
      · push_cast
        linarith
      · push_cast
        push_neg
        linarith
      · push_cast
        linarith
    · intro hk0
      have hidx' : evalIndex 1 t = -1 := by
        rw [hidx, hk0]
        norm_num
      refine ⟨hidx', ?_⟩
      intro Net evalW m hattr
      rw [evalOne, hidx', hattr, Option.map_none']
  · intro Net evalW g m ts out h
    exact evalRows_some evalW g m ts out h

/-- Witness for C1 at `t = 1/2` (fractional part `1/2 ≥ 1e-13`, correctly
routed), at `t = 1 + 2⁻⁴⁶` (inside the tolerance window, index one down),
and at a one-element evaluation of a concrete one-worker model. -/
theorem eval_routing_witness :
    (evalIndex 1 (1/2) = claimedIndex (1/2) ∧
      (claimedIndex (1/2) : ℚ) ≤ 1/2 ∧ (1/2 : ℚ) ≤ (claimedIndex (1/2) : ℚ) + 1 ∧
      0 ≤ (1/2 : ℚ) - 1 * (claimedIndex (1/2) : ℚ) ∧
      (1/2 : ℚ) - 1 * (claimedIndex (1/2) : ℚ) ≤ 1) ∧
    evalIndex 1 (1 + 1/2^46) = ⌊(1 + 1/2^46 : ℚ)⌋ - 1 ∧
    ([(5, 0, 0, 0)] : List Row).length = [(1/2 : ℚ)].length := by
  have h := eval_routing
  have hfl1 : ⌊(1 + 1/2^46 : ℚ)⌋ = 1 := by
    rw [Int.floor_eq_iff]
    norm_num
  have hfract : Int.fract (1 + 1/2^46 : ℚ) = 1/2^46 := by
    rw [Int.fract, hfl1]
    norm_num
  refine ⟨h.1 (1/2) (by norm_num) (by norm_num)
    (Or.inr (by norm_num [Int.fract, evalEps])), ?_, ?_⟩
  · exact (h.2.1 (1 + 1/2^46) (by norm_num) (by norm_num)
      (by rw [hfract]; norm_num)
      (by rw [hfract]; norm_num [evalEps])).1
  · have hidx : evalIndex 1 (1/2 : ℚ) = 0 := by
      rw [evalIndex_one, if_pos (by norm_num), Int.floor_eq_iff]
      norm_num [evalEps]
    exact (h.2.2 Unit (fun _ _ => (5, 0, 0, 0)) 1
      { attrs := fun i => if i = 0 then some () else none,
        modules := fun i => if i = 0 then some () else none,
        delta_t := 1, device := "cpu" } [(1/2 : ℚ)] [(5, 0, 0, 0)]
      (by
        show evalRows _ 1 _ [(1/2 : ℚ)] = some [(5, 0, 0, 0)]
        simp only [evalRows, evalOne, hidx]
        norm_num)).1

/-- Counterexample to C1 as stated: `t = 1 + 2⁻⁴⁶` lies in `[0, 72]` and in
the interior of interval 1, its fractional part being below the `1e-13`
tolerance; the code computes index `⌊t - 1e-13⌋ = 0`, so `t` is routed to
`worker_0` whose interval `[0, 1]` does not contain it, and the shifted
time `t - 0·delta_t = t` exceeds `delta_t = 1`. -/
theorem eval_routing_counterexample :
    (0 : ℚ) ≤ 1 + 1 / 2 ^ 46 ∧ (1 + 1 / 2 ^ 46 : ℚ) ≤ 72 ∧
    evalIndex 1 (1 + 1 / 2 ^ 46) = 0 ∧
    1 < (1 + 1 / 2 ^ 46 : ℚ) - delta_t * ((evalIndex 1 (1 + 1 / 2 ^ 46) : ℤ) : ℚ) := by
  have hidx : evalIndex 1 (1 + 1 / 2 ^ 46 : ℚ) = 0 := by
    rw [evalIndex_one, if_pos (by norm_num), Int.floor_eq_iff]
    norm_num [evalEps]
  refine ⟨by norm_num, by norm_num, hidx, ?_⟩
  rw [hidx]
  norm_num [delta_t, t_max, n_intervals]

/-! ## C10: behaviour of `MultiNetwork.eval` outside `[0, t_max]`

The script's model has attributes `worker_0 … worker_71` only.  An index
outside `0…71` makes `getattr(self, f"worker_{index}")` raise
`AttributeError` (modelled by `none`); this covers negative indices too,
since `worker_{-2}` is not an attribute of the model — no "end-of-list"
selection happens.  Negative times in `(-1, 0)` truncate to index 0, which
exists, so `worker_0` is silently evaluated at the unshifted negative
time. -/

/-- C10 (amended): for a model holding exactly the workers `0…71` (and
`delta_t = 1`): a time whose computed index is at least 72 fails on a
missing attribute; a time `t ≤ -1` has a negative index and likewise fails
on a missing attribute (no end-of-list sub-network is selected); a time in
`(-1, 0)` is truncated to index 0 and `worker_0` is evaluated at the
unshifted negative time; evaluation succeeds exactly when the computed
index lies in `[0, 72)`. -/
theorem eval_outside_domain {Net : Type} (evalW : Net → ℚ → Row)
    (m : MultiNetwork Net)
    (hin : ∀ i : ℤ, 0 ≤ i → i < 72 → (m.attrs i).isSome = true)
    (hout : ∀ i : ℤ, i < 0 ∨ 72 ≤ i → m.attrs i = none) :
    (∀ t : ℚ, 72 ≤ evalIndex 1 t → evalOne evalW 1 m t = none) ∧
    (∀ t : ℚ, t ≤ -1 →
      evalIndex 1 t < 0 ∧ evalOne evalW 1 m t = none) ∧
    (∀ t : ℚ, -1 < t → t < 0 →
      evalIndex 1 t = 0 ∧
      evalOne evalW 1 m t = (m.attrs 0).map fun w => evalW w t) ∧
    (∀ t : ℚ, (evalOne evalW 1 m t).isSome = true ↔
      0 ≤ evalIndex 1 t ∧ evalIndex 1 t < 72) := by
  have hneg : ∀ t : ℚ, t < 0 → evalIndex 1 t = ⌈t⌉ := by
    intro t ht
    rw [evalIndex_one, if_neg (by linarith), pyInt, if_neg (by linarith)]
  refine ⟨?_, ?_, ?_, ?_⟩
  · intro t hidx
    rw [evalOne, hout _ (Or.inr hidx), Option.map_none']
  · intro t ht
    have hceil : ⌈t⌉ ≤ -1 := by
      calc ⌈t⌉ ≤ ⌈(-1 : ℚ)⌉ := Int.ceil_le_ceil ht
      _ = -1 := by
        rw [Int.ceil_eq_iff]
        norm_num
    have hidx : evalIndex 1 t < 0 := by
      rw [hneg t (by linarith)]
      omega
    exact ⟨hidx, by rw [evalOne, hout _ (Or.inl hidx), Option.map_none']⟩
  · intro t ht1 ht0
    have hidx : evalIndex 1 t = 0 := by
      rw [hneg t ht0]
      exact Int.ceil_eq_zero_iff.mpr ⟨ht1, le_of_lt ht0⟩
    refine ⟨hidx, ?_⟩
    rw [evalOne, hidx]
    norm_num
  · intro t
    rw [evalOne, Option.isSome_map']
    constructor
    · intro hsome
      by_contra hcon
      rw [hout _ (by omega)] at hsome
      simp at hsome
    · intro ⟨hlo, hhi⟩
      exact hin _ hlo hhi

/-- A concrete piecewise model with exactly the workers `0…71`, each the
identity-like map `t ↦ (t, 0, 0, 0)`, used for the C10 witness and
counterexample. -/
def mnExample : MultiNetwork (ℚ → Row) :=
  { attrs := fun i => if 0 ≤ i ∧ i < 72 then some (fun t => (t, 0, 0, 0)) else none,
    modules := fun i => if 0 ≤ i ∧ i < 72 then some (fun t => (t, 0, 0, 0)) else none,
    delta_t := 1, device := "cpu" }

/-- Application of a worker of `mnExample` to a time. -/
def applyW : (ℚ → Row) → ℚ → Row := fun w t => w t

/-- Counterexample to C10 as stated: at the negative time `t = -1/2` the
computed index is `0`, not negative; and at the negative time `t = -2` the
index is negative (`-2`) but evaluation fails on the missing attribute
`worker_{-2}` (`none`) instead of selecting an end-of-list sub-network
(which would return a row). -/
theorem eval_outside_domain_counterexample :
    evalIndex 1 (-1/2) = 0 ∧ ¬ evalIndex 1 (-1/2) < 0 ∧
    evalIndex 1 (-2) = -2 ∧
    MultiNetwork.eval applyW 1 mnExample [-2] = none := by
  have h1 : evalIndex 1 (-1/2 : ℚ) = 0 := by
    rw [evalIndex_one, if_neg (by norm_num), pyInt, if_neg (by norm_num)]
    rw [Int.ceil_eq_zero_iff]
    constructor <;> norm_num
  have h2 : evalIndex 1 (-2 : ℚ) = -2 := by
    rw [evalIndex_one, if_neg (by norm_num), pyInt, if_neg (by norm_num),
      Int.ceil_eq_iff]
    constructor <;> norm_num
  refine ⟨h1, by omega, h2, ?_⟩
  show evalRows applyW 1 mnExample [-2] = none
  simp only [evalRows, evalOne, h2, mnExample]
  norm_num

/-- Witness for the amended C10 on the concrete model `mnExample`: a time
beyond the tolerance window above `t_max` fails, `t = -2` fails, `t = -1/2`
is evaluated by `worker_0` at `-1/2` itself. -/
theorem eval_outside_domain_witness :
    (evalOne applyW 1 mnExample (-2) = none) ∧
    (evalIndex 1 (-1/2) = 0 ∧
      evalOne applyW 1 mnExample (-1/2) =
        (mnExample.attrs 0).map fun w => applyW w (-1/2)) := by
  have h := eval_outside_domain applyW mnExample
    (fun i h1 h2 => by simp [mnExample, h1, h2])
    (fun i hi => by
      have : ¬ (0 ≤ i ∧ i < 72) := by omega
      simp [mnExample, this])
  exact ⟨(h.2.1 (-2) (by norm_num)).2, h.2.2.1 (-1/2) (by norm_num) (by norm_num)⟩

/-! ## The training loop (source lines 261-353)

The external framework's operations are abstract parameters, collected in
`MLOps`; the loop model threads the script's own state (`net_`, `state_t`,
`multi_net`) through them exactly as the source does and records which
library calls were made, in order, as a list of events.  In-place mutation
of a network by `fit`/`load_state_dict` is functional update. -/

/-- The loss parameter dictionary `params` (source lines 297-303). -/
structure LossParams (Res : Type) where
  residual : Res
  initial_input : ℚ
  initial_state : Row
  weights_residual : List ℚ
  initial_penalty : ℚ

/-- The library calls the loop body performs, tagged by interval. -/
inductive Event
  /-- `SymbolicOperator(...)` (lines 281-295). -/
  | mkResidual (i : ℕ)
  /-- `optimizer.fit(...)`, the ADAM phase (lines 309-316). -/
  | adamFit (i : ℕ)
  /-- `optimizer_lbfgs.fit(...)`, the L-BFGS-B phase (lines 321-338). -/
  | lbfgsFit (i : ℕ)
  /-- `net.eval(input_data=time_eval)` (line 341). -/
  | evalData (i : ℕ)
  /-- `multi_net.set_network(net=net, index=i)` (line 353). -/
  | register (i : ℕ)
  deriving DecidableEq

/-- The events of one loop iteration, in source order. -/
def intervalEvents (i : ℕ) : List Event :=
  [.mkResidual i, .adamFit i, .lbfgsFit i, .evalData i, .register i]

/-- The script state the loop threads: the next starting network `net_`,
the current initial condition `state_t`, the piecewise model `multi_net`,
and the log of performed calls. -/
structure LoopState (Net : Type) where
  net_ : Net
  state_t : Row
  multi : MultiNetwork Net
  events : List Event

/-- The external framework's operations used by the training branch.  `Net`
is the type of network objects, `P` of `state_dict`s, `Res` of symbolic
residual operators. -/
structure MLOps (Net P Res : Type) where
  /-- `model()`: a fresh local network; the argument numbers the call
  (successive RNG draws give distinct networks). -/
  model : ℕ → Net
  /-- `sub_model()` inside `model_()`, one call per interval slot. -/
  sub_model : ℕ → Net
  /-- `net.state_dict()`. -/
  state_dict : Net → P
  /-- `net.load_state_dict(sd)`, giving the updated network. -/
  load_state_dict : Net → P → Net
  /-- `SymbolicOperator(expressions=[f_X_C, f_P_C, f_S_C, f_Vol], …,
  function=net, constants=…)`. -/
  symbolicResidual : Net → Res
  /-- `optimizer.fit(op=net, input_data=…, n_epochs=…, loss="pirmse",
  params=…)`: the network after the ADAM phase. -/
  fitAdam : Net → List ℚ → ℤ → LossParams Res → Net
  /-- `ScipyInterface(fun=net, optimizer="L-BFGS-B", loss=…,
  loss_config=params, …).fit(input_data=…)`: the refined network. -/
  fitLbfgs : Net → LossParams Res → List ℚ → Net
  /-- `net.eval(input_data=grid)`: one output row per grid point. -/
  evalNet : Net → List ℚ → List Row
  /-- model of `np.exp(-i/3)` inside `Epoch_Decay`. -/
  expDecay : ℕ → ℚ

/-- The values produced by one iteration of the training loop (source lines
272-353) from state `s` at interval `i`. -/
structure IntervalRun (Net Res : Type) where
  params : LossParams Res
  n_epochs : ℤ
  netTrained : Net
  approximated : List Row
  next : LoopState Net

/-- One iteration of the training loop (source lines 272-353). -/
def runInterval {Net P Res : Type} (ops : MLOps Net P Res) (i : ℕ)
    (s : LoopState Net) : IntervalRun Net Res :=
  -- net = net_  (line 273)
  let net := s.net_
  -- time_train = time_eval = np.linspace(0, delta_t, n)  (lines 275-276)
  let time_train := linspace 0 delta_t nGridPoints
  let time_eval := linspace 0 delta_t nGridPoints
  -- initial_state = np.array([state_t])  (line 279)
  -- residual = SymbolicOperator(...)  (lines 281-295)
  -- params = {...}  (lines 297-303)
  let params : LossParams Res :=
    { residual := ops.symbolicResidual net,
      initial_input := 0,
      initial_state := s.state_t,
      weights_residual := [1, 1, 1, 1],
      initial_penalty := 5 * 10 ^ 8 }
  -- get_n_epochs = Epoch_Decay(i)  (line 306)
  let get_n_epochs := Epoch_Decay ops.expDecay i
  -- optimizer.fit(...)  (lines 309-316)
  let netAfterAdam := ops.fitAdam net time_train get_n_epochs params
  -- optimizer_lbfgs.fit(input_data=time_train)  (lines 318-338)
  let netTrained := ops.fitLbfgs netAfterAdam params time_train
  -- approximated_data = net.eval(input_data=time_eval)  (line 341)
  let approximated_data := ops.evalNet netTrained time_eval
  -- state_t = approximated_data[-1]  (line 344); the default is never used:
  -- eval returns one row per point of the 100-point grid
  let state_t' := approximated_data.getLastD s.state_t
  -- net_ = model(); net_.load_state_dict(net.state_dict())  (lines 347-349)
  let net_' := ops.load_state_dict (ops.model (i + 1)) (ops.state_dict netTrained)
  -- multi_net.set_network(net=net, index=i)  (line 353)
  let multi' := s.multi.set_network netTrained (i : ℤ)
  { params := params, n_epochs := get_n_epochs, netTrained := netTrained,
    approximated := approximated_data,
    next := { net_ := net_', state_t := state_t', multi := multi',
              events := s.events ++ intervalEvents i } }

/-- `multi_net = model_()` (source lines 212-262): 72 fresh sub-models
registered at indices `0…71`, `delta_t = 1`, default device `'cpu'`. -/
def multiNetStart {Net P Res : Type} (ops : MLOps Net P Res) : MultiNetwork Net :=
  mkMultiNetwork ((List.range n_intervals).map ops.sub_model) delta_t "cpu"

/-- The state before the loop: `net_ = model()` (line 261), `state_t`
holding the initial conditions (line 55), the fresh piecewise model. -/
def initLoopState {Net P Res : Type} (ops : MLOps Net P Res) : LoopState Net :=
  { net_ := ops.model 0, state_t := state_t0, multi := multiNetStart ops,
    events := [] }

/-- The loop state after the first `k` iterations. -/
def loopStateAt {Net P Res : Type} (ops : MLOps Net P Res) : ℕ → LoopState Net
  | 0 => initLoopState ops
  | k + 1 => (runInterval ops k (loopStateAt ops k)).next

/-- The sub-network trained on interval `i` (the value of `net` at line
353 of iteration `i`). -/
def trainedNet {Net P Res : Type} (ops : MLOps Net P Res) (i : ℕ) : Net :=
  (runInterval ops i (loopStateAt ops i)).netTrained

/-- The loss parameters used to train interval `i`. -/
def paramsAt {Net P Res : Type} (ops : MLOps Net P Res) (i : ℕ) :
    LossParams Res :=
  (runInterval ops i (loopStateAt ops i)).params

/-- The state after the whole loop (`n_intervals = 72` iterations). -/
def finalLoopState {Net P Res : Type} (ops : MLOps Net P Res) : LoopState Net :=
  loopStateAt ops n_intervals

/-! ## C2: hand-off of initial conditions between intervals -/

/-- C2: interval 0 is trained with `initial_state = [X0, P0, S0, V0] =
[0.05, 0.00, 10.00, 1.00]`; every interval `i + 1 < 72` is trained with
`initial_state` equal to the last row of the previous interval's trained
sub-network evaluated over that interval's time grid
`np.linspace(0, delta_t, n)`. -/
theorem initial_state_handoff {Net P Res : Type} (ops : MLOps Net P Res) :
    (paramsAt ops 0).initial_state = (0.05, 0.00, 10.00, 1.00) ∧
    ∀ i : ℕ, i + 1 < n_intervals →
      ∀ h : ops.evalNet (trainedNet ops i) (linspace 0 delta_t nGridPoints) ≠ [],
      (paramsAt ops (i + 1)).initial_state =
        (ops.evalNet (trainedNet ops i) (linspace 0 delta_t nGridPoints)).getLast h := by
  constructor
  · rfl
  · intro i _ h
    show ((runInterval ops i (loopStateAt ops i)).approximated).getLastD
        (loopStateAt ops i).state_t = _
    have happ : (runInterval ops i (loopStateAt ops i)).approximated =
        ops.evalNet (trainedNet ops i) (linspace 0 delta_t nGridPoints) := rfl
    rw [happ, List.getLastD_eq_getLast?, List.getLast?_eq_getLast _ h,
      Option.getD_some]

/-! ## C9: warm start of each interval's network -/

/-- C9: for every interval `i + 1`, the network that begins training is a
fresh `model()` into which the previous trained network's `state_dict` was
loaded, so (with the library's guarantee that `load_state_dict` installs
exactly the loaded parameters) its parameters equal the final trained
parameters of interval `i`. -/
theorem warm_start {Net P Res : Type} (ops : MLOps Net P Res)
    (hload : ∀ net sd, ops.state_dict (ops.load_state_dict net sd) = sd) :
    ∀ i : ℕ,
      (loopStateAt ops (i + 1)).net_ =
        ops.load_state_dict (ops.model (i + 1))
          (ops.state_dict (trainedNet ops i)) ∧
      ops.state_dict ((loopStateAt ops (i + 1)).net_) =
        ops.state_dict (trainedNet ops i) := by
  intro i
  exact ⟨rfl, hload _ _⟩

/-! ## C5: structure of the loop and of the final piecewise model -/

/-- Lower endpoint `i * delta_t` of interval `i`. -/
def intervalLow (i : ℕ) : ℚ := (i : ℚ) * delta_t

/-- Upper endpoint `(i + 1) * delta_t` of interval `i`. -/
def intervalHigh (i : ℕ) : ℚ := ((i : ℚ) + 1) * delta_t

/-- Projection of a `register` event to its interval index. -/
def regIndex : Event → Option ℕ
  | .register i => some i
  | _ => none

/-- The event log after `k` iterations is the concatenation of the
per-interval logs in loop order, whatever the library operations do. -/
theorem loopStateAt_events {Net P Res : Type} (ops : MLOps Net P Res) :
    ∀ n : ℕ, (loopStateAt ops n).events = (List.range n).flatMap intervalEvents := by
  intro n
  induction n with
  | zero => rfl
  | succ k ih =>
    show (loopStateAt ops k).events ++ intervalEvents k = _
    rw [ih, List.range_succ, List.flatMap_append]
    simp

/-- The `register` events after `k` iterations name exactly the indices
`0, 1, …, k-1` in that order. -/
theorem loopStateAt_registers {Net P Res : Type} (ops : MLOps Net P Res) :
    ∀ n : ℕ, (loopStateAt ops n).events.filterMap regIndex = List.range n := by
  intro n
  induction n with
  | zero => rfl
  | succ k ih =>
    show ((loopStateAt ops k).events ++ intervalEvents k).filterMap regIndex = _
    rw [List.filterMap_append, ih, List.range_succ]
    simp [intervalEvents, regIndex]

/-- After `n` iterations the piecewise model maps every already-processed
index to the sub-network trained on it, as attribute and as module. -/
theorem multi_after {Net P Res : Type} (ops : MLOps Net P Res) :
    ∀ n : ℕ, ∀ i : ℕ, i < n →
      (loopStateAt ops n).multi.attrs (i : ℤ) = some (trainedNet ops i) ∧
      (loopStateAt ops n).multi.modules (i : ℤ) = some (trainedNet ops i) := by
  intro n
  induction n with
  | zero => exact fun i hi => absurd hi (Nat.not_lt_zero i)
  | succ k ih =>
    intro i hi
    show ((loopStateAt ops k).multi.set_network (trainedNet ops k) (k : ℤ)).attrs i =
        some (trainedNet ops i) ∧
      ((loopStateAt ops k).multi.set_network (trainedNet ops k) (k : ℤ)).modules i =
        some (trainedNet ops i)
    rcases Nat.lt_succ_iff_lt_or_eq.mp hi with hik | rfl
    · have hne : (i : ℤ) ≠ (k : ℤ) := by exact_mod_cast Nat.ne_of_lt hik
      have := ih i hik
      constructor <;> simp [MultiNetwork.set_network, hne, this.1, this.2]
    · constructor <;> simp [MultiNetwork.set_network]

/-- C5: the loop runs exactly `n_intervals = 72` iterations, registering
interval indices `0, …, 71` in strictly increasing order; the intervals
have equal width `delta_t = t_max / n_intervals = 1`, are contiguous,
non-overlapping, and cover `[0, t_max]`; and afterwards the piecewise
model maps each index `i` (attribute and registered module alike) to the
sub-network trained on interval `i`, registered exactly once. -/
theorem loop_structure {Net P Res : Type} (ops : MLOps Net P Res) :
    (n_intervals = 72 ∧ delta_t = t_max / (n_intervals : ℚ) ∧ delta_t = 1) ∧
    ((finalLoopState ops).events.filterMap regIndex = List.range n_intervals ∧
      ((finalLoopState ops).events.filterMap regIndex).Pairwise (· < ·)) ∧
    (∀ i : ℕ, intervalLow (i + 1) = intervalHigh i) ∧
    (∀ i j : ℕ, i < j → intervalHigh i ≤ intervalLow j) ∧
    (∀ t : ℚ, 0 ≤ t → t ≤ t_max →
      ∃ i : ℕ, i < n_intervals ∧ intervalLow i ≤ t ∧ t ≤ intervalHigh i) ∧
    (∀ i : ℕ, i < n_intervals →
      (finalLoopState ops).multi.attrs (i : ℤ) = some (trainedNet ops i) ∧
      (finalLoopState ops).multi.modules (i : ℤ) = some (trainedNet ops i) ∧
      ((finalLoopState ops).events.filterMap regIndex).count i = 1) := by
  have hdt1 : delta_t = 1 := by norm_num [delta_t, t_max, n_intervals]
  have hreg : (finalLoopState ops).events.filterMap regIndex =
      List.range n_intervals := loopStateAt_registers ops n_intervals
  refine ⟨⟨rfl, rfl, hdt1⟩, ⟨hreg, ?_⟩, ?_, ?_, ?_, ?_⟩
  · rw [hreg]
    exact List.pairwise_lt_range n_intervals
  · intro i
    rw [intervalLow, intervalHigh]
    push_cast
    ring
  · intro i j hij
    rw [intervalLow, intervalHigh, hdt1, mul_one, mul_one]
    have : (i : ℚ) + 1 ≤ (j : ℚ) := by exact_mod_cast hij
    linarith
  · intro t ht0 htmax
    rcases eq_or_lt_of_le htmax with rfl | hlt
    · refine ⟨71, by norm_num [n_intervals], ?_, ?_⟩
      · rw [intervalLow, hdt1, mul_one]
        norm_num [t_max]
      · rw [intervalHigh, hdt1, mul_one]
        norm_num [t_max]
    · have hfl0 : 0 ≤ ⌊t⌋ := Int.floor_nonneg.mpr ht0
      have hcast : ((⌊t⌋.toNat : ℕ) : ℚ) = ((⌊t⌋ : ℤ) : ℚ) := by
        exact_mod_cast congrArg (fun z : ℤ => (z : ℚ)) (Int.toNat_of_nonneg hfl0)
      have h72 : ⌊t⌋ < 72 := Int.floor_lt.mpr (by
        rw [t_max] at hlt
        exact_mod_cast hlt)
      refine ⟨⌊t⌋.toNat, ?_, ?_, ?_⟩
      · show ⌊t⌋.toNat < n_intervals
        simp only [n_intervals]
        omega
      · rw [intervalLow, hdt1, mul_one, hcast]
        exact Int.floor_le t
      · rw [intervalHigh, hdt1, mul_one, hcast]
        exact le_of_lt (Int.lt_floor_add_one t)
  · intro i hi
    obtain ⟨ha, hm⟩ := multi_after ops n_intervals i hi
    refine ⟨ha, hm, ?_⟩
    rw [hreg]
    exact List.count_eq_one_of_mem (List.nodup_range n_intervals)
      (List.mem_range.mpr hi)

/-! ## C6: order of the two optimization phases within each interval -/

/-- The trace of `n` iterations holds `5 n` events. -/
theorem trace_length : ∀ n : ℕ,
    ((List.range n).flatMap intervalEvents).length = 5 * n := by
  intro n
  induction n with
  | zero => rfl
  | succ k ih =>
    rw [List.range_succ, List.flatMap_append, List.length_append, ih]
    simp [intervalEvents]
    omega

/-- An event occurring once per iteration, with its own tag, occurs in the
trace of `n` iterations exactly once when its tag is below `n`. -/
theorem count_trace (c : ℕ → Event)
    (hc : ∀ i j : ℕ, (intervalEvents j).count (c i) = if i = j then 1 else 0) :
    ∀ n i : ℕ, ((List.range n).flatMap intervalEvents).count (c i) =
      if i < n then 1 else 0 := by
  intro n i
  induction n with
  | zero => simp
  | succ k ih =>
    rw [List.range_succ, List.flatMap_append, List.count_append, ih]
    rw [show List.flatMap [k] intervalEvents = intervalEvents k by simp, hc i k]
    split_ifs <;> omega

/-- An event sitting at offset `pos` of its own iteration's event list, and
absent from every other iteration's, sits at absolute position
`5 * i + pos` of the trace. -/
theorem indexOf_trace (c : ℕ → Event) (pos : ℕ) (hpos : pos < 5)
    (hmem : ∀ i : ℕ, (intervalEvents i).indexOf (c i) = pos)
    (hnot : ∀ i j : ℕ, i ≠ j → c i ∉ intervalEvents j) :
    ∀ n i : ℕ, i < n →
      ((List.range n).flatMap intervalEvents).indexOf (c i) = 5 * i + pos := by
  intro n i hin
  induction n with
  | zero => omega
  | succ k ih =>
    rw [List.range_succ, List.flatMap_append]
    rcases Nat.lt_or_ge i k with h | h
    · rw [List.indexOf_append_of_mem]
      · exact ih h
      · refine List.mem_flatMap.mpr ⟨i, List.mem_range.mpr h, ?_⟩
        refine List.indexOf_lt_length.mp ?_
        rw [hmem i]
        exact hpos
    · have : i = k := by omega
      subst this
      rw [List.indexOf_append_of_not_mem, trace_length i,
        show List.flatMap [i] intervalEvents = intervalEvents i by simp, hmem i]
      intro hmem'
      obtain ⟨j, hj, hcj⟩ := List.mem_flatMap.mp hmem'
      exact hnot i j (by have := List.mem_range.mp hj; omega) hcj

/-- Per-iteration count of the ADAM event. -/
theorem count_adam_interval (i j : ℕ) :
    (intervalEvents j).count (.adamFit i) = if i = j then 1 else 0 := by
  rcases eq_or_ne i j with rfl | h
  · simp [intervalEvents, List.count_cons]
  · simp [intervalEvents, List.count_cons, h, Ne.symm h]

/-- Per-iteration count of the L-BFGS-B event. -/
theorem count_lbfgs_interval (i j : ℕ) :
    (intervalEvents j).count (.lbfgsFit i) = if i = j then 1 else 0 := by
  rcases eq_or_ne i j with rfl | h
  · simp [intervalEvents, List.count_cons]
  · simp [intervalEvents, List.count_cons, h, Ne.symm h]

/-- Per-iteration count of the evaluation event. -/
theorem count_eval_interval (i j : ℕ) :
    (intervalEvents j).count (.evalData i) = if i = j then 1 else 0 := by
  rcases eq_or_ne i j with rfl | h
  · simp [intervalEvents, List.count_cons]
  · simp [intervalEvents, List.count_cons, h, Ne.symm h]

/-- Per-iteration count of the registration event. -/
theorem count_register_interval (i j : ℕ) :
    (intervalEvents j).count (.register i) = if i = j then 1 else 0 := by
  rcases eq_or_ne i j with rfl | h
  · simp [intervalEvents, List.count_cons]
  · simp [intervalEvents, List.count_cons, h, Ne.symm h]

/-- C6: in every interval `i`, each of the four phases — ADAM fit, L-BFGS-B
fit, evaluation, registration — happens exactly once (so the L-BFGS-B phase
is never skipped), and they happen in that order: the ADAM fit completes
before the L-BFGS-B fit is invoked, and the sub-network is evaluated and
registered only after both fits. -/
theorem phase_order {Net P Res : Type} (ops : MLOps Net P Res) :
    ∀ i : ℕ, i < n_intervals →
      ((finalLoopState ops).events.count (.adamFit i) = 1 ∧
       (finalLoopState ops).events.count (.lbfgsFit i) = 1 ∧
       (finalLoopState ops).events.count (.evalData i) = 1 ∧
       (finalLoopState ops).events.count (.register i) = 1) ∧
      ((finalLoopState ops).events.indexOf (.adamFit i) <
         (finalLoopState ops).events.indexOf (.lbfgsFit i) ∧
       (finalLoopState ops).events.indexOf (.lbfgsFit i) <
         (finalLoopState ops).events.indexOf (.evalData i) ∧
       (finalLoopState ops).events.indexOf (.evalData i) <
         (finalLoopState ops).events.indexOf (.register i)) := by
  intro i hi
  have hev : (finalLoopState ops).events =
      (List.range n_intervals).flatMap intervalEvents :=
    loopStateAt_events ops n_intervals
  rw [hev]
  have hA := indexOf_trace Event.adamFit 1 (by omega)
    (fun j => by simp [intervalEvents, List.indexOf_cons_ne, List.indexOf_cons_self])
    (fun a b hab => by simp [intervalEvents, hab])
    n_intervals i hi
  have hL := indexOf_trace Event.lbfgsFit 2 (by omega)
    (fun j => by simp [intervalEvents, List.indexOf_cons_ne, List.indexOf_cons_self])
    (fun a b hab => by simp [intervalEvents, hab])
    n_intervals i hi
  have hE := indexOf_trace Event.evalData 3 (by omega)
    (fun j => by simp [intervalEvents, List.indexOf_cons_ne, List.indexOf_cons_self])
    (fun a b hab => by simp [intervalEvents, hab])
    n_intervals i hi
  have hR := indexOf_trace Event.register 4 (by omega)
    (fun j => by simp [intervalEvents, List.indexOf_cons_ne, List.indexOf_cons_self])
    (fun a b hab => by simp [intervalEvents, hab])
    n_intervals i hi
  refine ⟨⟨?_, ?_, ?_, ?_⟩, ?_, ?_, ?_⟩
  · rw [count_trace Event.adamFit count_adam_interval n_intervals i, if_pos hi]
  · rw [count_trace Event.lbfgsFit count_lbfgs_interval n_intervals i, if_pos hi]
  · rw [count_trace Event.evalData count_eval_interval n_intervals i, if_pos hi]
  · rw [count_trace Event.register count_register_interval n_intervals i, if_pos hi]
  · rw [hA, hL]; omega
  · rw [hL, hE]; omega
  · rw [hE, hR]; omega

/-! ## C7: no exception handling — failures terminate the script

The script wraps no call in `try`/`except` and has no retry logic, so an
exception in any library call aborts the training branch.  Here the
library calls may fail (`Except Err`), the loop is their left-to-right
`bind`-chain — exactly the straight-line control flow of the source — and
the save step (lines 355-361) runs after the loop.  An `AttributeError`,
optimizer divergence, etc. in iteration `k` leaves no state for any later
iteration: nothing after the failing call is performed. -/

/-- The external operations, now fallible: each call either returns a value
or raises (`Except.error`). -/
structure MLOpsE (Net P Res Err : Type) where
  /-- `model()`. -/
  model : ℕ → Net
  /-- `sub_model()`. -/
  sub_model : ℕ → Net
  /-- `net.state_dict()`. -/
  state_dict : Net → P
  /-- `net.load_state_dict(sd)`. -/
  load_state_dict : Net → P → Net
  /-- `SymbolicOperator(...)`. -/
  symbolicResidual : Net → Res
  /-- the ADAM `optimizer.fit(...)`. -/
  fitAdam : Net → List ℚ → ℤ → LossParams Res → Except Err Net
  /-- the L-BFGS-B `optimizer_lbfgs.fit(...)`. -/
  fitLbfgs : Net → LossParams Res → List ℚ → Except Err Net
  /-- `net.eval(input_data=grid)`. -/
  evalNet : Net → List ℚ → Except Err (List Row)
  /-- model of `np.exp(-i/3)`. -/
  expDecay : ℕ → ℚ
  /-- the `IndexError` of `approximated_data[-1]` on an empty array. -/
  indexError : Err
  /-- `SPFile(compact=False).write(...)` (lines 355-361). -/
  save : MultiNetwork Net → Except Err Unit

/-- One iteration of the training loop with fallible library calls: the
`bind`-chain mirrors the source's straight-line statements; any error stops
the chain (python exception propagation, there being no handler). -/
def runIntervalE {Net P Res Err : Type} (ops : MLOpsE Net P Res Err) (i : ℕ)
    (s : LoopState Net) : Except Err (LoopState Net) := do
  let net := s.net_
  let time_train := linspace 0 delta_t nGridPoints
  let time_eval := linspace 0 delta_t nGridPoints
  let params : LossParams Res :=
    { residual := ops.symbolicResidual net,
      initial_input := 0,
      initial_state := s.state_t,
      weights_residual := [1, 1, 1, 1],
      initial_penalty := 5 * 10 ^ 8 }
  let get_n_epochs := Epoch_Decay ops.expDecay i
  let netAfterAdam ← ops.fitAdam net time_train get_n_epochs params
  let netTrained ← ops.fitLbfgs netAfterAdam params time_train
  let approximated_data ← ops.evalNet netTrained time_eval
  let state_t' ← match approximated_data.getLast? with
    | some r => Except.ok r
    | none => Except.error ops.indexError
  Except.ok
    { net_ := ops.load_state_dict (ops.model (i + 1)) (ops.state_dict netTrained),
      state_t := state_t',
      multi := s.multi.set_network netTrained (i : ℤ),
      events := s.events ++ intervalEvents i }

/-- The piecewise model and pre-loop state for the fallible run. -/
def initLoopStateE {Net P Res Err : Type} (ops : MLOpsE Net P Res Err) :
    LoopState Net :=
  { net_ := ops.model 0, state_t := state_t0,
    multi := mkMultiNetwork ((List.range n_intervals).map ops.sub_model)
      delta_t "cpu",
    events := [] }

/-- The first `k` iterations of the fallible loop. -/
def runLoopE {Net P Res Err : Type} (ops : MLOpsE Net P Res Err) :
    ℕ → Except Err (LoopState Net)
  | 0 => Except.ok (initLoopStateE ops)
  | k + 1 => (runLoopE ops k).bind (runIntervalE ops k)

/-- The whole training branch: the 72-iteration loop, then
`saver.write(...)` (source lines 272-361). -/
def scriptRunE {Net P Res Err : Type} (ops : MLOpsE Net P Res Err) :
    Except Err (LoopState Net) := do
  let s ← runLoopE ops n_intervals
  ops.save s.multi
  Except.ok s

/-- C7: the script has no handler: if iteration `k` raises `e` (from the
ADAM fit, the L-BFGS-B fit, the evaluation, or the indexing of its result),
then every longer run — the whole loop included — is exactly that error, so
no later interval is trained or registered and the final save is never
reached; likewise an error of the save step itself propagates out of the
script. -/
theorem error_propagation {Net P Res Err : Type} (ops : MLOpsE Net P Res Err)
    (k : ℕ) (hk : k < n_intervals) (s : LoopState Net) (e : Err)
    (hok : runLoopE ops k = Except.ok s)
    (herr : runIntervalE ops k s = Except.error e) :
    (∀ n : ℕ, k < n → runLoopE ops n = Except.error e) ∧
    runLoopE ops n_intervals = Except.error e ∧
    scriptRunE ops = Except.error e ∧
    (∀ (s' : LoopState Net) (e' : Err),
      runLoopE ops n_intervals = Except.ok s' →
      ops.save s'.multi = Except.error e' →
      scriptRunE ops = Except.error e') := by
  have hall : ∀ n : ℕ, k < n → runLoopE ops n = Except.error e := by
    intro n hn
    induction n with
    | zero => omega
    | succ m ih =>
      rcases Nat.lt_or_ge k m with h | h
      · show (runLoopE ops m).bind (runIntervalE ops m) = Except.error e
        rw [ih h]
        rfl
      · have : k = m := by omega
        subst this
        show (runLoopE ops k).bind (runIntervalE ops k) = Except.error e
        rw [hok]
        exact herr
  have hloop : runLoopE ops n_intervals = Except.error e := hall n_intervals hk
  refine ⟨hall, hloop, ?_, ?_⟩
  · show (runLoopE ops n_intervals).bind _ = Except.error e
    rw [hloop]
    rfl
  · intro s' e' hok' hsave
    show (runLoopE ops n_intervals).bind _ = Except.error e'
    rw [hok']
    show (ops.save s'.multi).bind _ = Except.error e'
    rw [hsave]
    rfl

/-! ## Concrete instantiations of the abstract library operations

The loop theorems are parametric in the external framework; the following
toy instances exhibit them at specific, fully computable operations. -/

/-- A concrete total instance: networks are numbers, `fit` increments,
`eval` shifts the grid. -/
def uOps : MLOps ℕ ℕ Unit :=
  { model := fun k => k,
    sub_model := fun k => 100 + k,
    state_dict := fun net => net,
    load_state_dict := fun _ sd => sd,
    symbolicResidual := fun _ => (),
    fitAdam := fun net _ _ _ => net + 1,
    fitLbfgs := fun net _ _ => net + 1,
    evalNet := fun net ts => ts.map fun t => ((net : ℚ) + t, 0, 0, 0),
    expDecay := fun _ => 1 }

/-- A concrete fallible instance whose ADAM fit always raises. -/
def uOpsE : MLOpsE ℕ ℕ Unit String :=
  { model := fun k => k,
    sub_model := fun k => k,
    state_dict := fun net => net,
    load_state_dict := fun _ sd => sd,
    symbolicResidual := fun _ => (),
    fitAdam := fun _ _ _ _ => Except.error "ADAM diverged",
    fitLbfgs := fun net _ _ => Except.ok net,
    evalNet := fun net ts => Except.ok (ts.map fun t => ((net : ℚ) + t, 0, 0, 0)),
    expDecay := fun _ => 1,
    indexError := "IndexError",
    save := fun _ => Except.ok () }

/-- Witness for C2: at the concrete instance, interval 0 starts from the
initial-condition vector and interval 1 starts from the last row of
interval 0's evaluation. -/
theorem initial_state_handoff_witness :
    (paramsAt uOps 0).initial_state = (0.05, 0.00, 10.00, 1.00) ∧
    (paramsAt uOps 1).initial_state =
      (uOps.evalNet (trainedNet uOps 0)
        (linspace 0 delta_t nGridPoints)).getLastD (0, 0, 0, 0) := by
  have h := initial_state_handoff uOps
  have hne : uOps.evalNet (trainedNet uOps 0)
      (linspace 0 delta_t nGridPoints) ≠ [] := by
    simp only [uOps, linspace, nGridPoints]
    simp
    exact ⟨0, by norm_num⟩
  refine ⟨h.1, ?_⟩
  rw [h.2 0 (by norm_num [n_intervals]) hne,
    List.getLastD_eq_getLast?, List.getLast?_eq_getLast _ hne, Option.getD_some]

/-- Witness for C9 at interval 1 of the concrete instance. -/
theorem warm_start_witness :
    (loopStateAt uOps 1).net_ =
      uOps.load_state_dict (uOps.model 1) (uOps.state_dict (trainedNet uOps 0)) ∧
    uOps.state_dict ((loopStateAt uOps 1).net_) =
      uOps.state_dict (trainedNet uOps 0) :=
  warm_start uOps (fun _ _ => rfl) 0

/-- Witness for C5 at the concrete instance: width-1 intervals, register
log `0…71`, coverage of `t = 5/2`, and the final model's slot 3. -/
theorem loop_structure_witness :
    delta_t = 1 ∧
    (finalLoopState uOps).events.filterMap regIndex = List.range n_intervals ∧
    (∃ i : ℕ, i < n_intervals ∧
      intervalLow i ≤ (5/2 : ℚ) ∧ (5/2 : ℚ) ≤ intervalHigh i) ∧
    (finalLoopState uOps).multi.attrs (3 : ℤ) = some (trainedNet uOps 3) := by
  have h := loop_structure uOps
  exact ⟨h.1.2.2, h.2.1.1,
    h.2.2.2.2.1 (5/2) (by norm_num) (by norm_num [t_max]),
    (h.2.2.2.2.2 3 (by norm_num [n_intervals])).1⟩

/-- Witness for C6 at interval 5 of the concrete instance. -/
theorem phase_order_witness :
    (finalLoopState uOps).events.count (.lbfgsFit 5) = 1 ∧
    (finalLoopState uOps).events.indexOf (.adamFit 5) <
      (finalLoopState uOps).events.indexOf (.lbfgsFit 5) := by
  have h := phase_order uOps 5 (by norm_num [n_intervals])
  exact ⟨h.1.2.1, h.2.1⟩

/-- Witness for C7: with an ADAM fit that raises at iteration 0, the whole
loop and the whole script are that error. -/
theorem error_propagation_witness :
    runLoopE uOpsE n_intervals = Except.error "ADAM diverged" ∧
    scriptRunE uOpsE = Except.error "ADAM diverged" := by
  have h := error_propagation uOpsE 0 (by norm_num [n_intervals])
    (initLoopStateE uOpsE) "ADAM diverged" rfl rfl
  exact ⟨h.2.1, h.2.2.1⟩

end Bioreactor
